import Mathlib

/-!
# Verification of the Spool-Maker NFC tag codec and page transport

A shallow embedding of `NFCSpool.py` (Spool-Maker): the Ultimaker record
payload codecs (`UltimakerMaterialRecord`, `UltimakerStatRecord`, `SigRecord`),
the CRC8 checksum, the NDEF-style message framer, the page transport
(`cmd_read_page` / `cmd_write_page`, the `writeSpool` / `readSpool` loops) and
the UI decode path (`decode(octets, ui=True)`).

Bytes are modelled as natural numbers (`< 256` where validity matters); byte
buffers as `List Nat`; Python strings by their UTF-8 byte sequences; Python
exceptions as `Option` / explicit outcome values.
-/

namespace SpoolMaker

/-- `bs[a:b]` — the Python slice of a byte buffer. -/
def slice (bs : List Nat) (a b : Nat) : List Nat :=
  (bs.drop a).take (b - a)

/-- Big-endian encoding of `v` into `w` bytes (Python `struct.pack` with
`>B` / `>H` / `>L` / `>Q`); bytes are taken mod 256, the most significant first. -/
def encodeBE : Nat → Nat → List Nat
  | 0, _ => []
  | w + 1, v => encodeBE w (v / 256) ++ [v % 256]

/-- Big-endian decoding of a byte sequence (Python `struct.unpack`). -/
def decodeBE (bs : List Nat) : Nat :=
  bs.foldl (fun a b => a * 256 + b) 0

/-- Python `s.split('\x00')[0]`: the prefix of a byte string before the
first NUL byte. -/
def splitAtZero (bs : List Nat) : List Nat :=
  bs.takeWhile (fun b => decide (b ≠ 0))

theorem encodeBE_length (w v : Nat) : (encodeBE w v).length = w := by
  induction w generalizing v with
  | zero => rfl
  | succ w ih => simp [encodeBE, ih]

theorem decodeBE_append_singleton (bs : List Nat) (b : Nat) :
    decodeBE (bs ++ [b]) = decodeBE bs * 256 + b := by
  simp [decodeBE, List.foldl_append]

theorem decodeBE_encodeBE (w v : Nat) (h : v < 256 ^ w) :
    decodeBE (encodeBE w v) = v := by
  induction w generalizing v with
  | zero =>
    interval_cases v
    rfl
  | succ w ih =>
    have hv : v / 256 < 256 ^ w := by
      rw [Nat.div_lt_iff_lt_mul (by norm_num)]
      calc v < 256 ^ (w + 1) := h
        _ = 256 ^ w * 256 := by ring
    rw [encodeBE, decodeBE_append_singleton, ih _ hv]
    omega

theorem take_append_len (l₁ l₂ : List Nat) (a b : Nat) (h : l₁.length = a) :
    (l₁ ++ l₂).take (a + b) = l₁ ++ l₂.take b := by
  subst h
  exact List.take_append b

theorem drop_append_len (l₁ l₂ : List Nat) (a : Nat) (h : l₁.length = a) :
    (l₁ ++ l₂).drop a = l₂ := by
  subst h
  simp

theorem takeWhile_append_all {p : Nat → Bool} (s t : List Nat)
    (hs : ∀ b ∈ s, p b = true) :
    (s ++ t).takeWhile p = s ++ t.takeWhile p := by
  induction s with
  | nil => simp
  | cons a s ih =>
    have ha : p a = true := hs a (by simp)
    simp only [List.cons_append, List.takeWhile_cons, ha, if_true]
    rw [ih (fun b hb => hs b (by simp [hb]))]

theorem splitAtZero_append_zeros (s : List Nat) (k : Nat)
    (hs : ∀ b ∈ s, b ≠ 0) :
    splitAtZero (s ++ List.replicate k 0) = s := by
  unfold splitAtZero
  rw [takeWhile_append_all s _ (fun b hb => by simp [hs b hb])]
  cases k with
  | zero => simp
  | succ k => simp [List.replicate_succ]

/-- Padding a list with zeros and truncating: `(s ++ 0^k).take n = s ++ 0^(n-|s|)`
whenever `|s| ≤ n ≤ |s| + k`. -/
theorem take_append_replicate (s : List Nat) (k n : Nat)
    (h₁ : s.length ≤ n) (h₂ : n ≤ s.length + k) :
    (s ++ List.replicate k 0).take n = s ++ List.replicate (n - s.length) 0 := by
  have hn : n = s.length + (n - s.length) := by omega
  rw [hn, take_append_len s _ s.length (n - s.length) rfl, List.take_replicate]
  have : min (n - s.length) k = n - s.length := by omega
  rw [this]
  congr 2
  omega

/-- `UltimakerMaterialRecord` (`NFCSpool.py`): text fields (`serial`,
`batchCode`) are carried as their UTF-8 byte sequences, the material UUID as
its 16 raw bytes (`uuid.UUID.bytes`, big-endian). -/
structure UltimakerMaterialRecord where
  version : Nat
  compatibilityVersion : Nat
  serialNumber : List Nat
  manufacturingTimestamp : Nat
  materialId : List Nat
  programmingStationId : Nat
  batchCode : List Nat
deriving DecidableEq, Repr

namespace UltimakerMaterialRecord

/-- `UltimakerMaterialRecord._encode_payload`: `>BB` header, serial padded
with NULs and truncated to 14 bytes, `>Q` timestamp, 16 UUID bytes, `>H`
station id, batch code, then NUL padding and truncation to 108 bytes. -/
def encodePayload (r : UltimakerMaterialRecord) : List Nat :=
  (encodeBE 1 r.version ++ encodeBE 1 r.compatibilityVersion
    ++ (r.serialNumber ++ List.replicate 14 0).take 14
    ++ encodeBE 8 r.manufacturingTimestamp
    ++ r.materialId
    ++ encodeBE 2 r.programmingStationId
    ++ r.batchCode
    ++ List.replicate 108 0).take 108

/-- `UltimakerMaterialRecord._decode_payload`: fields are read back from
fixed offsets; note that the batch code is read from `octets[42:106]`
(64 bytes) and each text field stops at its first NUL byte. -/
def decodePayload (octets : List Nat) : UltimakerMaterialRecord :=
  { version := decodeBE (slice octets 0 1)
    compatibilityVersion := decodeBE (slice octets 1 2)
    serialNumber := splitAtZero (slice octets 2 16)
    manufacturingTimestamp := decodeBE (slice octets 16 24)
    materialId := slice octets 24 40
    programmingStationId := decodeBE (slice octets 40 42)
    batchCode := splitAtZero (slice octets 42 106) }

/-- A `UltimakerMaterialRecord` that Python can actually build and encode:
numeric fields in the range of their `struct` format, a 16-byte UUID, and
text fields made of non-NUL bytes (a NUL would terminate the field early
on decode). -/
def Valid (r : UltimakerMaterialRecord) : Prop :=
  r.version < 256 ∧ r.compatibilityVersion < 256 ∧
  r.manufacturingTimestamp < 256 ^ 8 ∧
  r.materialId.length = 16 ∧ (∀ b ∈ r.materialId, b < 256) ∧
  r.programmingStationId < 256 ^ 2 ∧
  (∀ b ∈ r.serialNumber, 0 < b ∧ b < 256) ∧
  (∀ b ∈ r.batchCode, 0 < b ∧ b < 256)

instance (r : UltimakerMaterialRecord) : Decidable (Valid r) := by
  unfold Valid
  infer_instance

end UltimakerMaterialRecord

/-- Extracting a field from a buffer: if the bytes before the field have
length `a` and the field spans `[a, b)`, the Python slice `E[a:b]` returns
exactly the field. -/
theorem slice_pre_field (E pre field rest : List Nat) (a b : Nat)
    (hE : E = pre ++ (field ++ rest)) (hpre : pre.length = a)
    (hfield : field.length = b - a) :
    slice E a b = field := by
  subst hE
  unfold slice
  rw [drop_append_len pre _ a hpre, List.take_left' hfield]

/-- Truncating an appended list keeps the prefix whole when the cut falls
after it. -/
theorem take_append_ge (l₁ l₂ : List Nat) (a n : Nat) (h : l₁.length = a)
    (han : a ≤ n) :
    (l₁ ++ l₂).take n = l₁ ++ l₂.take (n - a) := by
  have hn : n = a + (n - a) := by omega
  rw [hn, take_append_len l₁ l₂ a (n - a) h]
  congr 2
  omega

namespace UltimakerMaterialRecord

/-- Round trip of the Material payload codec: decoding an encoded valid
record restores it, provided the serial fits its 14-byte field and the
batch code fits the 64 bytes (`octets[42:106]`) that decoding reads back. -/
theorem material_roundtrip (r : UltimakerMaterialRecord) (hv : r.Valid)
    (hs : r.serialNumber.length ≤ 14) (hb : r.batchCode.length ≤ 64) :
    decodePayload (encodePayload r) = r := by
  obtain ⟨h1, h2, h3, h4, _h5, h6, h7, h8⟩ := hv
  cases r with
  | mk v cv sn mt mi ps bc =>
  simp only at h1 h2 h3 h4 h6 h7 h8 hs hb
  -- names for the eight chunks of the encoded payload
  have hS : (sn ++ List.replicate 14 0).take 14
      = sn ++ List.replicate (14 - sn.length) 0 :=
    take_append_replicate sn 14 14 hs (by omega)
  have hSlen : (sn ++ List.replicate (14 - sn.length) 0).length = 14 := by
    simp
    omega
  have hPlen : (encodeBE 1 v ++ encodeBE 1 cv
      ++ (sn ++ List.replicate (14 - sn.length) 0)
      ++ encodeBE 8 mt ++ mi ++ encodeBE 2 ps).length = 42 := by
    simp [encodeBE_length, h4]
    omega
  have hE : encodePayload ⟨v, cv, sn, mt, mi, ps, bc⟩
      = encodeBE 1 v ++ (encodeBE 1 cv
        ++ ((sn ++ List.replicate (14 - sn.length) 0)
        ++ (encodeBE 8 mt ++ (mi ++ (encodeBE 2 ps
        ++ (bc ++ List.replicate (66 - bc.length) 0)))))) := by
    unfold encodePayload
    simp only [hS]
    rw [List.append_assoc (encodeBE 1 v ++ encodeBE 1 cv
        ++ (sn ++ List.replicate (14 - sn.length) 0)
        ++ encodeBE 8 mt ++ mi ++ encodeBE 2 ps) bc (List.replicate 108 0)]
    rw [take_append_ge _ _ 42 108 hPlen (by omega)]
    rw [take_append_replicate bc 108 (108 - 42) (by omega) (by omega)]
    simp only [List.append_assoc]
  set E := encodePayload ⟨v, cv, sn, mt, mi, ps, bc⟩ with hEdef
  have hver : slice E 0 1 = encodeBE 1 v :=
    slice_pre_field E [] (encodeBE 1 v) _ 0 1 (by simpa using hE) rfl
      (by simp [encodeBE_length])
  have hcv : slice E 1 2 = encodeBE 1 cv :=
    slice_pre_field E (encodeBE 1 v) (encodeBE 1 cv) _ 1 2
      (by simpa [List.append_assoc] using hE) (encodeBE_length 1 v)
      (by simp [encodeBE_length])
  have hsn : slice E 2 16 = sn ++ List.replicate (14 - sn.length) 0 :=
    slice_pre_field E (encodeBE 1 v ++ encodeBE 1 cv) _ _ 2 16
      (by simpa [List.append_assoc] using hE)
      (by simp [encodeBE_length]) (by simpa using hSlen)
  have hmt : slice E 16 24 = encodeBE 8 mt :=
    slice_pre_field E (encodeBE 1 v ++ encodeBE 1 cv
        ++ (sn ++ List.replicate (14 - sn.length) 0)) _ _ 16 24
      (by simpa [List.append_assoc] using hE)
      (by simp [encodeBE_length]; omega) (by simp [encodeBE_length])
  have hmi : slice E 24 40 = mi :=
    slice_pre_field E (encodeBE 1 v ++ encodeBE 1 cv
        ++ (sn ++ List.replicate (14 - sn.length) 0)
        ++ encodeBE 8 mt) _ _ 24 40
      (by simpa [List.append_assoc] using hE)
      (by simp [encodeBE_length]; omega) (by simpa using h4)
  have hps : slice E 40 42 = encodeBE 2 ps :=
    slice_pre_field E (encodeBE 1 v ++ encodeBE 1 cv
        ++ (sn ++ List.replicate (14 - sn.length) 0)
        ++ encodeBE 8 mt ++ mi) _ _ 40 42
      (by simpa [List.append_assoc] using hE)
      (by simp [encodeBE_length, h4]; omega) (by simp [encodeBE_length])
  have hbc : slice E 42 106 = (bc ++ List.replicate (66 - bc.length) 0).take 64 := by
    refine slice_pre_field E (encodeBE 1 v ++ encodeBE 1 cv
        ++ (sn ++ List.replicate (14 - sn.length) 0)
        ++ encodeBE 8 mt ++ mi ++ encodeBE 2 ps)
        ((bc ++ List.replicate (66 - bc.length) 0).take 64)
        ((bc ++ List.replicate (66 - bc.length) 0).drop 64) 42 106 ?_ hPlen ?_
    · rw [List.take_append_drop]
      simpa [List.append_assoc] using hE
    · simp
      omega
  have hbc' : (bc ++ List.replicate (66 - bc.length) 0).take 64
      = bc ++ List.replicate (64 - bc.length) 0 := by
    rw [take_append_replicate bc (66 - bc.length) 64 hb (by omega)]
  simp only [decodePayload, hver, hcv, hsn, hmt, hmi, hps, hbc, hbc']
  rw [decodeBE_encodeBE 1 v (by simpa using h1),
    decodeBE_encodeBE 1 cv (by simpa using h2),
    decodeBE_encodeBE 8 mt h3, decodeBE_encodeBE 2 ps h6,
    splitAtZero_append_zeros sn _ (fun b hbmem => by have := h7 b hbmem; omega),
    splitAtZero_append_zeros bc _ (fun b hbmem => by have := h8 b hbmem; omega)]

end UltimakerMaterialRecord

/-- One shift step of the CRC8 computation (polynomial `x^8 + x^2 + x + 1`,
i.e. `0x07`). -/
def crc8Step (c : Nat) : Nat :=
  if 128 ≤ c % 256 then (c % 256) * 2 % 256 ^^^ 7 else (c % 256) * 2 % 256

/-- `n` shift steps. -/
def crc8Bits : Nat → Nat → Nat
  | 0, c => c
  | n + 1, c => crc8Bits n (crc8Step c)

/-- Modelled from the spec: the CRC8 checksum component (`crc8(...).digest()`
from the external `crc8` library, which is not part of this repository's
sources) — a deterministic one-byte checksum over an arbitrary byte span,
here the standard SMBus CRC-8 (polynomial `0x07`, initial value 0). -/
def crc8 (data : List Nat) : Nat :=
  data.foldl (fun c b => crc8Bits 8 ((c ^^^ b % 256) % 256)) 0

/-- `UltimakerStatRecord` (`NFCSpool.py`). The derived display string
`_unit` (`['N/A', 'mm', 'mg', 'cm³'][material_unit]`) is determined by
`materialUnit` and is not carried; its list indexing constrains
`materialUnit` to `{0, 1, 2, 3}`. -/
structure UltimakerStatRecord where
  version : Nat
  compatibilityVersion : Nat
  materialUnit : Nat
  materialTotal : Nat
  materialRemaining : Nat
  totalUsageDuration : Nat
deriving DecidableEq, Repr

namespace UltimakerStatRecord

/-- `UltimakerStatRecord._encode_payload`: `struct.pack('>BBBLLQ', ...)`
(19 bytes) with the CRC8 of those 19 bytes appended, truncated to 20. -/
def encodePayload (r : UltimakerStatRecord) : List Nat :=
  let data := encodeBE 1 r.version ++ encodeBE 1 r.compatibilityVersion
    ++ encodeBE 1 r.materialUnit ++ encodeBE 4 r.materialTotal
    ++ encodeBE 4 r.materialRemaining ++ encodeBE 8 r.totalUsageDuration
  ((data.take 19) ++ [crc8 (data.take 19)]).take 20

/-- `UltimakerStatRecord._decode_payload`: unpack `>BBBLLQ`, then compare
the stored byte 19 with the recomputed CRC8 (a mismatch only prints a
warning) and rebuild the record. Python raises (`IndexError` on the
`_unit` lookup) when the decoded unit is not in `{0,1,2,3}`, and when the
buffer is shorter than 20 bytes; both are modelled as `none`. -/
def decodePayload (octets : List Nat) : Option UltimakerStatRecord :=
  if octets.length < 20 then none
  else
    let u := decodeBE (slice octets 2 3)
    if u < 4 then
      some { version := decodeBE (slice octets 0 1)
             compatibilityVersion := decodeBE (slice octets 1 2)
             materialUnit := u
             materialTotal := decodeBE (slice octets 3 7)
             materialRemaining := decodeBE (slice octets 7 11)
             totalUsageDuration := decodeBE (slice octets 11 19) }
    else none

/-- `UltimakerStatRecord._decode_payload` prints a CRC warning exactly when
the stored byte 19 differs from the CRC8 recomputed over bytes 0–18. -/
def decodeWarnsCrc (octets : List Nat) : Bool :=
  octets.getD 19 0 ≠ crc8 (octets.take 19)

/-- A `UltimakerStatRecord` that Python can build and encode: unit in
`{0,1,2,3}` (list-indexing in `__init__`) and numeric fields within their
`struct` ranges. -/
def Valid (r : UltimakerStatRecord) : Prop :=
  r.version < 256 ∧ r.compatibilityVersion < 256 ∧ r.materialUnit < 4 ∧
  r.materialTotal < 256 ^ 4 ∧ r.materialRemaining < 256 ^ 4 ∧
  r.totalUsageDuration < 256 ^ 8

instance (r : UltimakerStatRecord) : Decidable (Valid r) := by
  unfold Valid
  infer_instance

end UltimakerStatRecord

namespace SigRecord

/-- `SigRecord._encode_payload`: `struct.pack('>H', sig)`. -/
def encodePayload (sig : Nat) : List Nat :=
  encodeBE 2 sig

/-- `SigRecord._decode_payload`: `struct.unpack('>H', octets)`; the record
declares `_decode_min_payload_length = 2`, so shorter buffers fail. -/
def decodePayload (octets : List Nat) : Option Nat :=
  if octets.length < 2 then none else some (decodeBE (slice octets 0 2))

end SigRecord

/-- A slice that ends inside the first part of an appended buffer ignores
the second part. -/
theorem slice_append_left (l₁ l₂ : List Nat) (a b : Nat) (hb : b ≤ l₁.length) :
    slice (l₁ ++ l₂) a b = slice l₁ a b := by
  unfold slice
  rw [List.drop_append_eq_append_drop, List.take_append_eq_append_take]
  have h2 : b - a - (l₁.drop a).length = 0 := by
    simp only [List.length_drop]
    omega
  rw [h2]
  simp

namespace UltimakerStatRecord

/-- The 19 bytes of `struct.pack('>BBBLLQ', ...)` in
`UltimakerStatRecord._encode_payload`, before the CRC8 byte. -/
def packedFields (r : UltimakerStatRecord) : List Nat :=
  encodeBE 1 r.version ++ encodeBE 1 r.compatibilityVersion
    ++ encodeBE 1 r.materialUnit ++ encodeBE 4 r.materialTotal
    ++ encodeBE 4 r.materialRemaining ++ encodeBE 8 r.totalUsageDuration

theorem packedFields_length (r : UltimakerStatRecord) :
    (packedFields r).length = 19 := by
  simp [packedFields, encodeBE_length]

theorem encodePayload_eq (r : UltimakerStatRecord) :
    encodePayload r = packedFields r ++ [crc8 (packedFields r)] := by
  unfold encodePayload
  have h19 : (packedFields r).take 19 = packedFields r :=
    List.take_of_length_le (by rw [packedFields_length])
  show ((packedFields r).take 19 ++ [crc8 ((packedFields r).take 19)]).take 20 = _
  rw [h19]
  exact List.take_of_length_le (by simp [packedFields_length])

theorem stat_encodePayload_length (r : UltimakerStatRecord) :
    (encodePayload r).length = 20 := by
  simp [encodePayload_eq, packedFields_length]

/-- Round trip of the Stat payload codec for records Python can build. -/
theorem stat_roundtrip (r : UltimakerStatRecord) (hv : r.Valid) :
    decodePayload (encodePayload r) = some r := by
  obtain ⟨h1, h2, h3, h4, h5, h6⟩ := hv
  cases r with
  | mk v cv mu mt mr du =>
  simp only at h1 h2 h3 h4 h5 h6
  set E := encodePayload ⟨v, cv, mu, mt, mr, du⟩ with hEdef
  have hE : E = encodeBE 1 v ++ (encodeBE 1 cv ++ (encodeBE 1 mu
      ++ (encodeBE 4 mt ++ (encodeBE 4 mr ++ (encodeBE 8 du
      ++ [crc8 (packedFields ⟨v, cv, mu, mt, mr, du⟩)]))))) := by
    rw [hEdef, encodePayload_eq]
    simp [packedFields, List.append_assoc]
  have hver : slice E 0 1 = encodeBE 1 v :=
    slice_pre_field E [] _ _ 0 1 (by simpa using hE) rfl
      (by simp [encodeBE_length])
  have hcv : slice E 1 2 = encodeBE 1 cv :=
    slice_pre_field E (encodeBE 1 v) _ _ 1 2
      (by simpa [List.append_assoc] using hE) (encodeBE_length 1 v)
      (by simp [encodeBE_length])
  have hmu : slice E 2 3 = encodeBE 1 mu :=
    slice_pre_field E (encodeBE 1 v ++ encodeBE 1 cv) _ _ 2 3
      (by simpa [List.append_assoc] using hE) (by simp [encodeBE_length])
      (by simp [encodeBE_length])
  have hmt : slice E 3 7 = encodeBE 4 mt :=
    slice_pre_field E (encodeBE 1 v ++ encodeBE 1 cv ++ encodeBE 1 mu) _ _ 3 7
      (by simpa [List.append_assoc] using hE) (by simp [encodeBE_length])
      (by simp [encodeBE_length])
  have hmr : slice E 7 11 = encodeBE 4 mr :=
    slice_pre_field E (encodeBE 1 v ++ encodeBE 1 cv ++ encodeBE 1 mu
        ++ encodeBE 4 mt) _ _ 7 11
      (by simpa [List.append_assoc] using hE) (by simp [encodeBE_length])
      (by simp [encodeBE_length])
  have hdu : slice E 11 19 = encodeBE 8 du :=
    slice_pre_field E (encodeBE 1 v ++ encodeBE 1 cv ++ encodeBE 1 mu
        ++ encodeBE 4 mt ++ encodeBE 4 mr) _ _ 11 19
      (by simpa [List.append_assoc] using hE) (by simp [encodeBE_length])
      (by simp [encodeBE_length])
  have hlen : E.length = 20 := stat_encodePayload_length _
  unfold decodePayload
  rw [hlen]
  norm_num
  rw [hmu, decodeBE_encodeBE 1 mu (by simpa using (by omega : mu < 256))]
  rw [hver, hcv, hmt, hmr, hdu]
  exact ⟨h3, decodeBE_encodeBE 1 v (by simpa using h1),
    decodeBE_encodeBE 1 cv (by simpa using h2), rfl,
    decodeBE_encodeBE 4 mt h4, decodeBE_encodeBE 4 mr h5,
    decodeBE_encodeBE 8 du h6⟩

/-- At encode time byte 19 is exactly the CRC8 of bytes 0–18. -/
theorem encode_crc_matches (r : UltimakerStatRecord) :
    (encodePayload r).getD 19 0 = crc8 ((encodePayload r).take 19) := by
  rw [encodePayload_eq]
  have htake : (packedFields r ++ [crc8 (packedFields r)]).take 19 = packedFields r :=
    List.take_left' (packedFields_length r)
  rw [htake]
  have : (packedFields r ++ [crc8 (packedFields r)]).getD 19 0
      = [crc8 (packedFields r)].getD (19 - (packedFields r).length) 0 := by
    apply List.getD_append_right
    rw [packedFields_length]
  rw [this, packedFields_length]
  simp

/-- The decoded Stat record does not depend on the CRC byte: replacing
byte 19 by anything leaves the decode result unchanged. -/
theorem decode_ignores_crc_byte (octets : List Nat) (c : Nat)
    (h : octets.length = 20) :
    decodePayload (octets.take 19 ++ [c]) = decodePayload octets := by
  have hlen : (octets.take 19 ++ [c]).length = 20 := by
    simp
    omega
  have hslice : ∀ a b : Nat, b ≤ 19 →
      slice (octets.take 19 ++ [c]) a b = slice octets a b := by
    intro a b hb
    rw [slice_append_left _ _ a b (by simp; omega)]
    conv_rhs => rw [← List.take_append_drop 19 octets]
    rw [slice_append_left _ _ a b (by simp; omega)]
  unfold decodePayload
  rw [hlen, h]
  norm_num
  rw [hslice 0 1 (by norm_num), hslice 1 2 (by norm_num), hslice 2 3 (by norm_num),
    hslice 3 7 (by norm_num), hslice 7 11 (by norm_num), hslice 11 19 (by norm_num)]

/-- Decode succeeds on every 20-byte buffer whose unit byte is in range. -/
theorem decode_isSome (octets : List Nat) (h : octets.length = 20)
    (hu : octets.getD 2 0 < 4) :
    (decodePayload octets).isSome := by
  have hsl : slice octets 2 3 = [octets.getD 2 0] := by
    unfold slice
    have h2 : 2 < octets.length := by omega
    have hd : (octets.drop 2).length = 18 := by simp [h]
    cases hdrop : octets.drop 2 with
    | nil => rw [hdrop] at hd; simp at hd
    | cons x xs =>
      have hx : x = octets.getD 2 0 := by
        have := List.getD_eq_getElem?_getD octets 2 0
        rw [this, ← List.head?_drop, hdrop]
        rfl
      simp [hdrop, hx]
  unfold decodePayload
  rw [h]
  norm_num
  rw [hsl]
  have : decodeBE [octets.getD 2 0] = octets.getD 2 0 := by
    simp [decodeBE]
  rw [this]
  exact hu

end UltimakerStatRecord

/-- Round trip of the Signature payload codec. -/
theorem SigRecord.sig_roundtrip (sig : Nat) (h : sig < 256 ^ 2) :
    SigRecord.decodePayload (SigRecord.encodePayload sig) = some sig := by
  unfold SigRecord.decodePayload SigRecord.encodePayload
  rw [if_neg (by rw [encodeBE_length]; omega)]
  have : slice (encodeBE 2 sig) 0 2 = encodeBE 2 sig := by
    unfold slice
    simp [List.take_of_length_le, encodeBE_length]
  rw [this, decodeBE_encodeBE 2 sig h]

/-- A typed spool record, the value the message framer carries
(`UltimakerMaterialRecord` / `UltimakerStatRecord` / `SigRecord`). -/
inductive SpoolRecord where
  | material (r : UltimakerMaterialRecord)
  | stat (r : UltimakerStatRecord)
  | sig (s : Nat)
deriving DecidableEq, Repr

namespace SpoolRecord

/-- TNF of the record's registered type (`urn:nfc:ext:` → 4, external;
`urn:nfc:wkt:` → 1, well-known). -/
def tnf : SpoolRecord → Nat
  | .material _ => 4
  | .stat _ => 4
  | .sig _ => 1

/-- The wire form of the record's registered `_type`, as ASCII bytes:
`'ultimaker.nl:material'`, `'ultimaker.nl:stat'` and `'Sig'`. -/
def typeBytes : SpoolRecord → List Nat
  | .material _ => [117, 108, 116, 105, 109, 97, 107, 101, 114, 46, 110,
      108, 58, 109, 97, 116, 101, 114, 105, 97, 108]
  | .stat _ => [117, 108, 116, 105, 109, 97, 107, 101, 114, 46, 110, 108,
      58, 115, 116, 97, 116]
  | .sig _ => [83, 105, 103]

/-- The wire form of the record's `_name` (NDEF id): `'1'` for Material,
`'2'` for Stat, unset for Sig. -/
def idBytes : SpoolRecord → List Nat
  | .material _ => [49]
  | .stat _ => [50]
  | .sig _ => []

/-- The record's encoded payload. -/
def payload : SpoolRecord → List Nat
  | .material r => r.encodePayload
  | .stat r => r.encodePayload
  | .sig s => SigRecord.encodePayload s

end SpoolRecord

/-- Modelled from the spec: the NDEF record header emitted by the message
framer (the external `ndef` library's `message_encoder`, not part of this
repository's sources) — a flags byte (MB, ME, SR, IL, TNF; all records
here are short records), type length, payload length, id length when an
id is present. -/
def recordFlags (mb me : Bool) (r : SpoolRecord) : Nat :=
  (if mb then 128 else 0) + (if me then 64 else 0) + 16
    + (if r.idBytes.isEmpty then 0 else 8) + r.tnf

/-- Modelled from the spec: one framed record — header followed by type,
id and payload bytes. -/
def encodeRecord (mb me : Bool) (r : SpoolRecord) : List Nat :=
  [recordFlags mb me r, r.typeBytes.length, r.payload.length]
    ++ (if r.idBytes.isEmpty then [] else [r.idBytes.length])
    ++ r.typeBytes ++ r.idBytes ++ r.payload

/-- Modelled from the spec: framing of the tail of a record sequence (the
held-back record gets ME when it is last). -/
def encodeMessageRest : SpoolRecord → List SpoolRecord → List Nat
  | r, [] => encodeRecord false true r
  | r, r' :: rest => encodeRecord false false r ++ encodeMessageRest r' rest

/-- Modelled from the spec: the message framer's encoder — records in
order, the first flagged "message begin", the last "message end". -/
def encodeMessage : List SpoolRecord → List Nat
  | [] => []
  | [r] => encodeRecord true true r
  | r :: r' :: rest => encodeRecord true false r ++ encodeMessageRest r' rest

/-- Classification of a decoded record by (TNF, type): the three
registered variants; anything else is unknown. A variant whose payload
does not decode yields `none` as well. -/
def classifyRecord (tnf : Nat) (typ payload : List Nat) : Option SpoolRecord :=
  if tnf = 4 ∧ typ = [117, 108, 116, 105, 109, 97, 107, 101, 114, 46, 110,
      108, 58, 109, 97, 116, 101, 114, 105, 97, 108] then
    if 106 ≤ payload.length then
      some (.material (UltimakerMaterialRecord.decodePayload payload))
    else none
  else if tnf = 4 ∧ typ = [117, 108, 116, 105, 109, 97, 107, 101, 114, 46,
      110, 108, 58, 115, 116, 97, 116] then
    (UltimakerStatRecord.decodePayload payload).map .stat
  else if tnf = 1 ∧ typ = [83, 105, 103] then
    (SigRecord.decodePayload payload).map .sig
  else none

/-- Modelled from the spec: the message framer's decoder (the `ndef`
library's `message_decoder` with `errors='relax'`) — walk the stream,
read a header and exactly the announced payload bytes, emit the records
it can classify, skip unknown or malformed ones, and stop at the
"message end" flag or when the buffer is exhausted. `fuel` bounds the
walk (one unit per record). -/
def decodeRecords : Nat → List Nat → List SpoolRecord
  | 0, _ => []
  | _, [] => []
  | fuel + 1, flags :: rest =>
    let tnf := flags % 8
    let il := flags / 8 % 2 = 1
    let sr := flags / 16 % 2 = 1
    let me := flags / 64 % 2 = 1
    let typeLen := rest.getD 0 0
    let payloadLen := if sr then rest.getD 1 0 else decodeBE (slice rest 1 5)
    let lenEnd := if sr then 2 else 5
    let idLen := if il then rest.getD lenEnd 0 else 0
    let hdrEnd := lenEnd + if il then 1 else 0
    let typ := slice rest hdrEnd (hdrEnd + typeLen)
    let pay := slice rest (hdrEnd + typeLen + idLen)
      (hdrEnd + typeLen + idLen + payloadLen)
    let tail := rest.drop (hdrEnd + typeLen + idLen + payloadLen)
    match classifyRecord tnf typ pay with
    | some r => if me then [r] else r :: decodeRecords fuel tail
    | none => if me then [] else decodeRecords fuel tail

/-- Modelled from the spec: decode a raw buffer into the record sequence. -/
def decodeMessage (bs : List Nat) : List SpoolRecord :=
  decodeRecords bs.length bs

/-- `MyFilamentSpool` (`NFCSpool.py`). -/
structure MyFilamentSpool where
  material : UltimakerMaterialRecord
  status : UltimakerStatRecord
deriving DecidableEq, Repr

/-- `MyFilamentSpool.__init__`: fixed batch code `'123456789AB'` (ASCII
bytes below) and station id `0xaffe`; remaining quantity defaults to the
total. -/
def MyFilamentSpool.make (guid serial : List Nat) (unit weight : Nat) :
    MyFilamentSpool :=
  { material := { version := 0, compatibilityVersion := 0
                  serialNumber := serial, manufacturingTimestamp := 0
                  materialId := guid, programmingStationId := 0xaffe
                  batchCode := [49, 50, 51, 52, 53, 54, 55, 56, 57, 65, 66] }
    status := { version := 0, compatibilityVersion := 0, materialUnit := unit
                materialTotal := weight, materialRemaining := weight
                totalUsageDuration := 0 } }

/-- The zero padding `MyFilamentSpool.data` appends when the encoded
message is not a whole number of 4-byte pages. -/
def pad4 (bs : List Nat) : List Nat :=
  if bs.length % 4 = 0 then bs
  else bs ++ List.replicate (4 - bs.length % 4) 0

/-- `MyFilamentSpool.data`: the framed sequence Material, Sig `0x2000`,
Stat, Stat, zero-padded to a multiple of 4 bytes. -/
def MyFilamentSpool.data (s : MyFilamentSpool) : List Nat :=
  pad4 (encodeMessage
    [.material s.material, .sig 0x2000, .stat s.status, .stat s.status])

/-- `cmd_read_page(start, count)`: the APDU `FF B0 P_hi P_lo N`
(defaulting to `count = 4` at every call site). -/
def cmd_read_page (start count : Nat) : List Nat :=
  [0xff, 0xb0, start / 256 % 256, start % 256, count % 256]

/-- `cmd_write_page(start, data)`: the APDU `FF D6 P_hi P_lo N <data>`. -/
def cmd_write_page (start : Nat) (data : List Nat) : List Nat :=
  [0xff, 0xd6, start / 256 % 256, start % 256, data.length % 256] ++ data

/-- The page-write commands issued by the loop in `writeSpool`:
`for i in range(0, len(tag_data), 4)` transmits
`cmd_write_page(i//4 + 4, tag_data[i:i+4])`; with `i = 4*j` that is
`⌈len/4⌉` commands, the `j`-th writing page `j + 4`. -/
def writePageCommands (tagData : List Nat) : List (List Nat) :=
  (List.range ((tagData.length + 3) / 4)).map
    (fun j => cmd_write_page (j + 4) (slice tagData (4 * j) (4 * j + 4)))

/-- The page-read commands issued by the loop in `readSpool`:
`tagDataLength = 300`, `for i in range(0, 300, 4)` transmits
`cmd_read_page(i//4 + 4)`. -/
def readPageCommands : List (List Nat) :=
  (List.range 75).map (fun j => cmd_read_page (j + 4) 4)

/-- The raw buffer `readSpool` rebuilds: the page responses, in page
order, flattened (`[item for sublist in data for item in sublist]`),
given the tag's response to each page read. -/
def readTagData (resp : Nat → List Nat) : List Nat :=
  ((List.range 75).map (fun j => resp (j + 4))).flatten

/-- How one spool-session run ends, as observable from `writeSpool` /
`readSpool`: the distinct "no card" return of the `ui=True` timeout
branch, an uncaught Python exception, the caught card-removal branch, or
normal completion. -/
inductive SessionOutcome where
  | noCardUi
  | unhandledError
  | removed
  | completed
deriving DecidableEq, Repr

/-- `writeSpool` (`NFCSpool.py`), as a function of its environment: was a
card presented before the 30 s timeout, and — if so — which page-write
transmit (0-indexed), if any, first raises `NoCardException` because the
card was removed. Returns the outcome and the page-write commands
actually transmitted.

* No card and `ui=True`: `return None, None` — the distinct "no card"
  value.
* No card and `ui=False`: the code falls through with `service = None`
  and `service.connection` raises an `AttributeError` that no `except`
  clause catches.
* Card present: the chunk loop transmits `writePageCommands`; a
  `NoCardException` at command `k` aborts the loop (commands `k+1, ...`
  are never issued) and is caught by `except NoCardException`, which
  reports the removal; otherwise the beep is transmitted and the
  function finishes. -/
def writeSpoolRun (ui cardPresent : Bool) (tagData : List Nat)
    (failAt : Option Nat) : SessionOutcome × List (List Nat) :=
  if !cardPresent then
    if ui then (.noCardUi, []) else (.unhandledError, [])
  else
    let cmds := writePageCommands tagData
    match failAt with
    | some k =>
      if k < cmds.length then (.removed, cmds.take (k + 1))
      else (.completed, cmds)
    | none => (.completed, cmds)

/-- `readSpool` (`NFCSpool.py`), same environment shape: `resp` is the
tag's 4-byte answer per page, `failAt` the first page-read transmit (if
any) that raises `NoCardException`. Returns the outcome, the page-read
commands actually transmitted, and the raw buffer handed to `decode`
(when the read loop completed).

* No card and `ui=True`: the distinct six-`None` "no card" return.
* No card and `ui=False`: `service.connection` on `service = None`
  raises an uncaught `AttributeError`.
* Removal at command `k`: the loop aborts; with `ui=True` the caught
  handler returns the distinct `(2, DEFAULT_SERIAL, 0, 0, 0, 0)`; with
  `ui=False` execution continues past the handler and
  `decode(bytes(tag_data))` raises an uncaught `NameError` (`tag_data`
  was never assigned).
* Otherwise all 75 reads run and the flattened buffer goes to `decode`. -/
def readSpoolRun (ui cardPresent : Bool) (resp : Nat → List Nat)
    (failAt : Option Nat) :
    SessionOutcome × List (List Nat) × Option (List Nat) :=
  if !cardPresent then
    if ui then (.noCardUi, [], none) else (.unhandledError, [], none)
  else
    match failAt with
    | some k =>
      if k < 75 then
        if ui then (.removed, readPageCommands.take (k + 1), none)
        else (.unhandledError, readPageCommands.take (k + 1), none)
      else (.completed, readPageCommands, some (readTagData resp))
    | none => (.completed, readPageCommands, some (readTagData resp))

/-- The `ui=True` branch of `decode` (`NFCSpool.py`): walk the decoded
records; a Material record overwrites the remembered GUID; the first
Stat record supplies total, remaining and duration (seconds / 3600,
modelled over `ℚ`) and ends the walk (`break`). The GUID is remembered
as the UUID's 16 raw bytes (Python keeps `str(record._material_id)`,
which determines and is determined by them). -/
def decodeUiLoop : List Nat → List SpoolRecord → List Nat × Nat × Nat × ℚ
  | g, [] => (g, 0, 0, 0)
  | _, .material r :: rest => decodeUiLoop r.materialId rest
  | g, .stat r :: _ => (g, r.materialTotal, r.materialRemaining,
      (r.totalUsageDuration : ℚ) / 3600)
  | g, .sig _ :: rest => decodeUiLoop g rest

/-- `decode(octets, ui=True)` after message decoding: status 0 plus the
values collected by the loop (`r_guid` starts out empty). -/
def decodeUi (records : List SpoolRecord) : Nat × List Nat × Nat × Nat × ℚ :=
  let r := decodeUiLoop [] records
  (0, r.1, r.2.1, r.2.2.1, r.2.2.2)

theorem UltimakerMaterialRecord.material_encodePayload_length
    (r : UltimakerMaterialRecord) : r.encodePayload.length = 108 := by
  unfold encodePayload
  simp [encodeBE_length]
  omega

end SpoolMaker

namespace SpoolMaker

/-- **C2.** Every encoded payload has its declared fixed size — 108 bytes
for Material, 20 for Stat, 2 for Signature — for every input record,
whatever the lengths of the serial and batch-code strings. -/
theorem C2_fixed_payload_sizes :
    (∀ r : UltimakerMaterialRecord, r.encodePayload.length = 108) ∧
    (∀ r : UltimakerStatRecord, r.encodePayload.length = 20) ∧
    (∀ s : Nat, (SigRecord.encodePayload s).length = 2) :=
  ⟨UltimakerMaterialRecord.material_encodePayload_length,
   UltimakerStatRecord.stat_encodePayload_length,
   fun s => encodeBE_length 2 s⟩

/-- **C4.** For a buffer whose length `L` is a multiple of 4, the write
loop of `writeSpool` issues exactly `L/4` page-write commands, the
0-indexed chunk `i` going to page `4 + i`, in increasing page order. -/
theorem C4_page_chunking (tagData : List Nat) (h : tagData.length % 4 = 0) :
    (writePageCommands tagData).length = tagData.length / 4 ∧
    ∀ i, i < tagData.length / 4 →
      (writePageCommands tagData).getD i []
        = cmd_write_page (4 + i) ((tagData.drop (4 * i)).take 4) := by
  constructor
  · simp only [writePageCommands, List.length_map, List.length_range]
    omega
  · intro i hi
    have hlt : i < (writePageCommands tagData).length := by
      simp only [writePageCommands, List.length_map, List.length_range]
      omega
    rw [List.getD_eq_getElem _ _ hlt]
    simp only [writePageCommands, List.getElem_map, List.getElem_range]
    congr 1
    · omega
    · unfold slice
      congr 1
      omega

/-- **C4 witness.** An 8-byte buffer: two page commands, pages 4 and 5. -/
theorem C4_page_chunking_witness :
    (writePageCommands [1, 2, 3, 4, 5, 6, 7, 8]).length
        = ([1, 2, 3, 4, 5, 6, 7, 8] : List Nat).length / 4 ∧
    ∀ i, i < ([1, 2, 3, 4, 5, 6, 7, 8] : List Nat).length / 4 →
      (writePageCommands [1, 2, 3, 4, 5, 6, 7, 8]).getD i []
        = cmd_write_page (4 + i) ((([1, 2, 3, 4, 5, 6, 7, 8] : List Nat).drop (4 * i)).take 4) :=
  C4_page_chunking [1, 2, 3, 4, 5, 6, 7, 8] (by decide)

/-- **C5.** `readSpool` issues exactly 75 four-byte page reads, page
`4 + j` at position `j` (pages 4 through 78, a 300-byte span), and a run
that completes hands the flattened responses, in page order, to the
decoder. -/
theorem C5_read_transport :
    readPageCommands.length = 75 ∧
    (∀ j, j < 75 → readPageCommands.getD j [] = cmd_read_page (j + 4) 4) ∧
    ∀ (ui : Bool) (resp : Nat → List Nat),
      readSpoolRun ui true resp none
        = (.completed, readPageCommands, some (readTagData resp)) := by
  refine ⟨by simp [readPageCommands], ?_, ?_⟩
  · intro j hj
    have hlt : j < readPageCommands.length := by
      simp [readPageCommands]
      omega
    rw [List.getD_eq_getElem _ _ hlt]
    simp [readPageCommands]
  · intro ui resp
    rfl

/-- **C5 witness.** The third command reads page 6. -/
theorem C5_read_transport_witness :
    readPageCommands.getD 2 [] = cmd_read_page (2 + 4) 4 :=
  C5_read_transport.2.1 2 (by decide)

/-- **C7 (code evaluated at the failing input).** On timeout, `ui=True`
runs return the distinct "no card" value, but `ui=False` runs end in an
uncaught `AttributeError` (`service` is still `None` when
`service.connection` is read) instead of a "no card" outcome. -/
theorem C7_timeout_outcomes :
    writeSpoolRun true false [] none = (.noCardUi, []) ∧
    readSpoolRun true false (fun _ => [0, 0, 0, 0]) none = (.noCardUi, [], none) ∧
    writeSpoolRun false false [] none = (.unhandledError, []) ∧
    readSpoolRun false false (fun _ => [0, 0, 0, 0]) none
      = (.unhandledError, [], none) :=
  ⟨rfl, rfl, rfl, rfl⟩

/-- **C8.** If page-write command `k` fails because the card was removed,
the command sequence stops right there — exactly the first `k + 1`
commands were issued, nothing is retried — and the session takes the
distinct removal branch. -/
theorem C8_removal_aborts_write (ui : Bool) (tagData : List Nat) (k : Nat)
    (hk : k < (writePageCommands tagData).length) :
    writeSpoolRun ui true tagData (some k)
      = (.removed, (writePageCommands tagData).take (k + 1)) := by
  unfold writeSpoolRun
  simp [hk]

/-- **C3.** `MyFilamentSpool.data` is the framed sequence Material,
Signature (marker `0x2000`), Stat, Stat — in that exact order — followed
by fewer than four padding zero bytes, and its total length is a
multiple of 4. -/
theorem C3_spool_image_layout (s : MyFilamentSpool) :
    (∃ k, k < 4 ∧ s.data
      = encodeMessage [.material s.material, .sig 0x2000,
          .stat s.status, .stat s.status] ++ List.replicate k 0) ∧
    s.data.length % 4 = 0 := by
  constructor
  · by_cases h : (encodeMessage [.material s.material, .sig 0x2000,
        .stat s.status, .stat s.status]).length % 4 = 0
    · exact ⟨0, by norm_num, by simp [MyFilamentSpool.data, pad4, h]⟩
    · refine ⟨4 - (encodeMessage [.material s.material, .sig 0x2000,
        .stat s.status, .stat s.status]).length % 4, by omega, ?_⟩
      simp [MyFilamentSpool.data, pad4, h]
  · unfold MyFilamentSpool.data pad4
    by_cases h : (encodeMessage [.material s.material, .sig 0x2000,
        .stat s.status, .stat s.status]).length % 4 = 0
    · simp [h]
    · simp only [h, if_false, List.length_append, List.length_replicate]
      omega

/-- **C8 witness.** A 24-byte image (6 page commands) with the card
removed at the third command: outcome `removed`, 3 commands issued. -/
theorem C8_removal_aborts_write_witness :
    writeSpoolRun true true (List.replicate 24 0) (some 2)
      = (.removed, (writePageCommands (List.replicate 24 0)).take 3) :=
  C8_removal_aborts_write true (List.replicate 24 0) 2 (by decide)

/-- Does the record's Python type test `type(record) is UltimakerStatRecord`
succeed? -/
def SpoolRecord.isStat : SpoolRecord → Bool
  | .stat _ => true
  | _ => false

/-- The GUID `decode(ui=True)` remembers after walking a prefix of the
record list: the material id of the last Material record seen, starting
from `g`. -/
def lastMaterialId (g : List Nat) (rs : List SpoolRecord) : List Nat :=
  rs.foldl (fun g r => match r with
    | .material m => m.materialId
    | _ => g) g

theorem decodeUiLoop_first_stat (pre post : List SpoolRecord)
    (st : UltimakerStatRecord) (g : List Nat)
    (hpre : ∀ r ∈ pre, r.isStat = false) :
    decodeUiLoop g (pre ++ .stat st :: post)
      = (lastMaterialId g pre, st.materialTotal, st.materialRemaining,
         (st.totalUsageDuration : ℚ) / 3600) := by
  induction pre generalizing g with
  | nil => rfl
  | cons r rest ih =>
    cases r with
    | material m =>
      simp only [List.cons_append, decodeUiLoop, List.append_eq]
      rw [ih m.materialId (fun x hx => hpre x (by simp [hx]))]
      rfl
    | stat r' =>
      have := hpre (.stat r') (by simp)
      simp [SpoolRecord.isStat] at this
    | sig s =>
      simp only [List.cons_append, decodeUiLoop, List.append_eq]
      rw [ih g (fun x hx => hpre x (by simp [hx]))]
      rfl

/-- **C10.** `decode(ui=True)` reports status 0, the total/remaining/
duration of the first Stat record (the walk `break`s there, so the
records after it — universally quantified here — are never examined),
the material id of the last Material record before that Stat, and the
duration as stored seconds divided by 3600. -/
theorem C10_ui_decode (pre post : List SpoolRecord)
    (st : UltimakerStatRecord) (hpre : ∀ r ∈ pre, r.isStat = false) :
    decodeUi (pre ++ .stat st :: post)
      = (0, lastMaterialId [] pre, st.materialTotal, st.materialRemaining,
         (st.totalUsageDuration : ℚ) / 3600) := by
  unfold decodeUi
  rw [decodeUiLoop_first_stat pre post st [] hpre]

/-- **C10 witness.** Two Material records and a Sig before the first of
two Stat records: the second Material's id and the first Stat's numbers
come back, duration 7200 s reading as 7200/3600 h. -/
theorem C10_ui_decode_witness :
    decodeUi [.material ⟨0, 0, [], 0, [3], 0, []⟩, .sig 9,
        .material ⟨0, 0, [], 0, [5], 0, []⟩,
        .stat ⟨0, 0, 2, 1000, 500, 7200⟩, .stat ⟨0, 0, 2, 7, 7, 7⟩]
      = (0, lastMaterialId [] [.material ⟨0, 0, [], 0, [3], 0, []⟩, .sig 9,
          .material ⟨0, 0, [], 0, [5], 0, []⟩],
         1000, 500, (7200 : ℚ) / 3600) :=
  C10_ui_decode
    [.material ⟨0, 0, [], 0, [3], 0, []⟩, .sig 9,
     .material ⟨0, 0, [], 0, [5], 0, []⟩]
    [.stat ⟨0, 0, 2, 7, 7, 7⟩] ⟨0, 0, 2, 1000, 500, 7200⟩ (by decide)

set_option maxRecDepth 4000 in
/-- **C6 counterexample.** A 20-byte buffer whose stored CRC byte (0)
disagrees with the recomputed CRC8 (56), yet Stat decode returns no
record at all: its unit byte is 4, so the `_unit` list lookup in the
record constructor raises — the claim's "the decoded record with all its
fields is still returned" fails on this 20-byte input. -/
theorem C6_counterexample :
    UltimakerStatRecord.decodePayload
        [0, 0, 4, 0, 0, 0, 0, 0, 0, 0, 0, 0, 0, 0, 0, 0, 0, 0, 0, 0] = none ∧
    ([0, 0, 4, 0, 0, 0, 0, 0, 0, 0, 0, 0, 0, 0, 0, 0, 0, 0, 0, 0] :
        List Nat).getD 19 0
      ≠ crc8 (([0, 0, 4, 0, 0, 0, 0, 0, 0, 0, 0, 0, 0, 0, 0, 0, 0, 0, 0, 0] :
        List Nat).take 19) ∧
    ([0, 0, 4, 0, 0, 0, 0, 0, 0, 0, 0, 0, 0, 0, 0, 0, 0, 0, 0, 0] :
        List Nat).length = 20 := by
  decide

/-- **C6 (amended).** At encode time byte 19 of every Stat payload is the
CRC8 of bytes 0–18; and for every 20-byte input whose unit byte (index 2)
is in `{0,1,2,3}`, decode returns a record and its result is unchanged
when byte 19 is replaced by anything — so a CRC mismatch never alters or
blocks the decode, it is surfaced only as a warning. -/
theorem C6_crc_policy :
    (∀ r : UltimakerStatRecord,
      (r.encodePayload).getD 19 0 = crc8 ((r.encodePayload).take 19)) ∧
    (∀ (octets : List Nat) (c : Nat), octets.length = 20 →
      octets.getD 2 0 < 4 →
      (UltimakerStatRecord.decodePayload octets).isSome ∧
      UltimakerStatRecord.decodePayload (octets.take 19 ++ [c])
        = UltimakerStatRecord.decodePayload octets) :=
  ⟨UltimakerStatRecord.encode_crc_matches,
   fun octets c h hu =>
    ⟨UltimakerStatRecord.decode_isSome octets h hu,
     UltimakerStatRecord.decode_ignores_crc_byte octets c h⟩⟩

/-- **C6 witness.** The all-zero 20-byte buffer decodes, and still
decodes identically with its CRC byte replaced by 99. -/
theorem C6_crc_policy_witness :
    (UltimakerStatRecord.decodePayload (List.replicate 20 0)).isSome ∧
    UltimakerStatRecord.decodePayload ((List.replicate 20 0).take 19 ++ [99])
      = UltimakerStatRecord.decodePayload (List.replicate 20 0) :=
  C6_crc_policy.2 (List.replicate 20 0) 99 (by decide) (by decide)

/-- One framer step on a short record with MB and ME set (flags `0xDC`),
the Material type (TNF 4, 21 type bytes, id `'1'`) and a 108-byte
payload: the decoder returns the decoded Material record and — the ME
flag — stops, whatever bytes follow. -/
theorem decodeRecords_material_last (fuel : Nat) (P tail : List Nat)
    (hP : P.length = 108) :
    decodeRecords (fuel + 1) (220 :: 21 :: 108 :: 1 ::
      ([117, 108, 116, 105, 109, 97, 107, 101, 114, 46, 110, 108, 58, 109,
        97, 116, 101, 114, 105, 97, 108] ++ ([49] ++ (P ++ tail))))
      = [.material (UltimakerMaterialRecord.decodePayload P)] := by
  unfold decodeRecords
  norm_num [slice]
  rw [List.take_left' hP]
  simp [classifyRecord, hP]

/-- The same framer step without MB (flags `0x5C`), for a Material record
that ends a message whose first record was something else. -/
theorem decodeRecords_material_last' (fuel : Nat) (P tail : List Nat)
    (hP : P.length = 108) :
    decodeRecords (fuel + 1) (92 :: 21 :: 108 :: 1 ::
      ([117, 108, 116, 105, 109, 97, 107, 101, 114, 46, 110, 108, 58, 109,
        97, 116, 101, 114, 105, 97, 108] ++ ([49] ++ (P ++ tail))))
      = [.material (UltimakerMaterialRecord.decodePayload P)] := by
  unfold decodeRecords
  norm_num [slice]
  rw [List.take_left' hP]
  simp [classifyRecord, hP]

/-- One framer step on an unrecognized record (TNF 2, type byte `88`,
2-byte payload, no ME flag): the record is skipped and decoding
continues with the rest of the buffer. -/
theorem decodeRecords_skip_unknown (fuel : Nat) (tail : List Nat) :
    decodeRecords (fuel + 1) (26 :: 1 :: 2 :: 1 :: (88 :: 7 :: 9 :: 9 :: tail))
      = decodeRecords fuel tail := by
  conv_lhs => unfold decodeRecords
  norm_num [slice, classifyRecord]

theorem encodeRecord_material_cons (r : UltimakerMaterialRecord)
    (g : List Nat) :
    encodeRecord true true (.material r) ++ g
      = 220 :: 21 :: 108 :: 1 ::
        ([117, 108, 116, 105, 109, 97, 107, 101, 114, 46, 110, 108, 58, 109,
          97, 116, 101, 114, 105, 97, 108] ++ ([49] ++ (r.encodePayload ++ g))) := by
  simp [encodeRecord, recordFlags, SpoolRecord.typeBytes, SpoolRecord.idBytes,
    SpoolRecord.tnf, SpoolRecord.payload,
    UltimakerMaterialRecord.material_encodePayload_length]

theorem encodeRecord_material_cons' (r : UltimakerMaterialRecord)
    (g : List Nat) :
    encodeRecord false true (.material r) ++ g
      = 92 :: 21 :: 108 :: 1 ::
        ([117, 108, 116, 105, 109, 97, 107, 101, 114, 46, 110, 108, 58, 109,
          97, 116, 101, 114, 105, 97, 108] ++ ([49] ++ (r.encodePayload ++ g))) := by
  simp [encodeRecord, recordFlags, SpoolRecord.typeBytes, SpoolRecord.idBytes,
    SpoolRecord.tnf, SpoolRecord.payload,
    UltimakerMaterialRecord.material_encodePayload_length]

/-- **C9.** A buffer holding one well-formed framed MaterialRecord
followed by arbitrary garbage decodes to a record set containing exactly
that MaterialRecord, with no exception; and a buffer in which an
unrecognized record header (TNF 2, unknown type) precedes the
MaterialRecord decodes the same way — the unknown record is skipped and
decoding continues. -/
theorem C9_framer_leniency (r : UltimakerMaterialRecord) (garbage : List Nat)
    (hv : r.Valid) (hs : r.serialNumber.length ≤ 14)
    (hb : r.batchCode.length ≤ 64) :
    decodeMessage (encodeRecord true true (.material r) ++ garbage)
      = [.material r] ∧
    decodeMessage ([26, 1, 2, 1, 88, 7, 9, 9]
      ++ (encodeRecord false true (.material r) ++ garbage))
      = [.material r] := by
  have hP := r.material_encodePayload_length
  constructor
  · unfold decodeMessage
    rw [encodeRecord_material_cons r garbage]
    have hlen : (220 :: 21 :: 108 :: 1 ::
        ([117, 108, 116, 105, 109, 97, 107, 101, 114, 46, 110, 108, 58, 109,
          97, 116, 101, 114, 105, 97, 108]
          ++ ([49] ++ (r.encodePayload ++ garbage)))).length
        = (133 + garbage.length) + 1 := by
      simp [hP]
      omega
    rw [hlen, decodeRecords_material_last _ _ _ hP,
      r.material_roundtrip hv hs hb]
  · unfold decodeMessage
    rw [encodeRecord_material_cons' r garbage]
    have hlen : (([26, 1, 2, 1, 88, 7, 9, 9] : List Nat)
        ++ 92 :: 21 :: 108 :: 1 ::
        ([117, 108, 116, 105, 109, 97, 107, 101, 114, 46, 110, 108, 58, 109,
          97, 116, 101, 114, 105, 97, 108]
          ++ ([49] ++ (r.encodePayload ++ garbage)))).length
        = (141 + garbage.length) + 1 := by
      simp [hP]
      omega
    rw [hlen]
    have hcons : ([26, 1, 2, 1, 88, 7, 9, 9] : List Nat)
        ++ 92 :: 21 :: 108 :: 1 ::
        ([117, 108, 116, 105, 109, 97, 107, 101, 114, 46, 110, 108, 58, 109,
          97, 116, 101, 114, 105, 97, 108]
          ++ ([49] ++ (r.encodePayload ++ garbage)))
        = 26 :: 1 :: 2 :: 1 :: (88 :: 7 :: 9 :: 9 ::
          (92 :: 21 :: 108 :: 1 ::
          ([117, 108, 116, 105, 109, 97, 107, 101, 114, 46, 110, 108, 58, 109,
            97, 116, 101, 114, 105, 97, 108]
            ++ ([49] ++ (r.encodePayload ++ garbage))))) := by
      simp
    rw [hcons, decodeRecords_skip_unknown]
    have h141 : 141 + garbage.length = (140 + garbage.length) + 1 := by omega
    rw [h141, decodeRecords_material_last' _ _ _ hP,
      r.material_roundtrip hv hs hb]

/-- **C9 witness.** A concrete valid Material record framed and followed
by three garbage bytes, alone and after an unknown record. -/
theorem C9_framer_leniency_witness :
    decodeMessage (encodeRecord true true
        (.material ⟨3, 1, [65, 66], 7, List.replicate 16 5, 9, [67]⟩)
        ++ [255, 254, 253])
      = [.material ⟨3, 1, [65, 66], 7, List.replicate 16 5, 9, [67]⟩] ∧
    decodeMessage ([26, 1, 2, 1, 88, 7, 9, 9]
      ++ (encodeRecord false true
        (.material ⟨3, 1, [65, 66], 7, List.replicate 16 5, 9, [67]⟩)
        ++ [255, 254, 253]))
      = [.material ⟨3, 1, [65, 66], 7, List.replicate 16 5, 9, [67]⟩] :=
  C9_framer_leniency ⟨3, 1, [65, 66], 7, List.replicate 16 5, 9, [67]⟩
    [255, 254, 253] (by decide) (by decide) (by decide)

set_option maxRecDepth 8000 in
/-- **C1 counterexample.** A Material record whose batch code fills all
66 bytes of its field (66 × `'A'`): decoding the encoded payload does not
restore it — decode reads the batch code back from `octets[42:106]`, 64
bytes, so the last two batch bytes are lost. -/
theorem C1_counterexample :
    UltimakerMaterialRecord.decodePayload (UltimakerMaterialRecord.encodePayload
        ⟨0, 0, [], 0, List.replicate 16 0, 0, List.replicate 66 65⟩)
      ≠ ⟨0, 0, [], 0, List.replicate 16 0, 0, List.replicate 66 65⟩ := by
  decide

/-- **C1 (amended).** Round trip `decode (encode r) = r` for all three
record variants: Material for every valid record whose serial fits its
14-byte field and whose batch code is at most 64 bytes (the span decode
reads back; 65- and 66-byte batch codes are truncated), Stat for every
valid record, Signature for every 16-bit value. -/
theorem C1_roundtrip (m : UltimakerMaterialRecord)
    (st : UltimakerStatRecord) (g : Nat) (hm : m.Valid)
    (hms : m.serialNumber.length ≤ 14) (hmb : m.batchCode.length ≤ 64)
    (hst : st.Valid) (hg : g < 256 ^ 2) :
    UltimakerMaterialRecord.decodePayload
        (UltimakerMaterialRecord.encodePayload m) = m ∧
    UltimakerStatRecord.decodePayload
        (UltimakerStatRecord.encodePayload st) = some st ∧
    SigRecord.decodePayload (SigRecord.encodePayload g) = some g :=
  ⟨m.material_roundtrip hm hms hmb, st.stat_roundtrip hst,
   SigRecord.sig_roundtrip g hg⟩

set_option maxRecDepth 8000 in
/-- **C1 witness.** A 14-byte serial (`'0123456789ABCD'`), a 64-byte
batch code, a full Stat record and the marker `0x2000` all survive the
round trip. -/
theorem C1_roundtrip_witness :
    UltimakerMaterialRecord.decodePayload (UltimakerMaterialRecord.encodePayload
        ⟨1, 2, [48, 49, 50, 51, 52, 53, 54, 55, 56, 57, 65, 66, 67, 68],
         123456789, List.replicate 16 171, 45054, List.replicate 64 65⟩)
      = ⟨1, 2, [48, 49, 50, 51, 52, 53, 54, 55, 56, 57, 65, 66, 67, 68],
         123456789, List.replicate 16 171, 45054, List.replicate 64 65⟩ ∧
    UltimakerStatRecord.decodePayload (UltimakerStatRecord.encodePayload
        ⟨0, 0, 2, 1000000, 1000000, 0⟩) = some ⟨0, 0, 2, 1000000, 1000000, 0⟩ ∧
    SigRecord.decodePayload (SigRecord.encodePayload 8192) = some 8192 :=
  C1_roundtrip
    ⟨1, 2, [48, 49, 50, 51, 52, 53, 54, 55, 56, 57, 65, 66, 67, 68],
     123456789, List.replicate 16 171, 45054, List.replicate 64 65⟩
    ⟨0, 0, 2, 1000000, 1000000, 0⟩ 8192
    (by decide) (by decide) (by decide) (by decide) (by decide)

end SpoolMaker
